import Mathlib

/-!
Verification of the raplcap direct-MSR backend against its specification.

The definitions below are a shallow embedding of the C sources:
- src/msr/raplcap-msr-common.c (register codec, msr_set_limits, replace_bits)
- src/msr/raplcap-msr.c (bit helpers, topology normalization, lifecycle,
  is_zone_enabled / raplcap_is_zone_supported)
- src/msr/raplcap-msr-sys-linux.c (topology discovery, msr_sys_init)
- src/msr/raplcap-cpuid.c (cpuid_get_family_model)

Machine integers are modelled as Nat (the C code never relies on wrap-around in
the modelled paths; where a 64-bit truncation could matter it is made explicit
with a 2^64 mask).  C doubles are modelled as rationals; the C double-to-uint64
cast truncates toward zero, which on the asserted-nonnegative inputs equals the
floor.  Stateful code is modelled by explicit state passing, with OS services
(register reads, file opens) as oracles.
-/

namespace RaplcapProof

/-- 0xFFFFFFFFFFFFFFFF, the value of a fully set 64-bit register. -/
def UINT64_MASK : ℕ := 2 ^ 64 - 1

/-- C bitwise complement of a 64-bit value (~mask). -/
def compl64 (m : ℕ) : ℕ := UINT64_MASK ^^^ m

/-- raplcap-msr-common.c pow2_u64 / raplcap-msr.c pow2_u64: 2^y. -/
def pow2_u64 (y : ℕ) : ℕ := 2 ^ y

/-- Fuel-based helper realizing the C while loop of log2_u64. -/
def log2_go : ℕ → ℕ → ℕ
  | 0, _ => 0
  | n + 1, y => if y ≤ 1 then 0 else log2_go n (y / 2) + 1

-- Termination uses the shrinking first copy of y; both copies stay equal.
/-- raplcap-msr-common.c log2_u64: floor of log2; returns 0 for y = 0.
The C loop shifts y right until it reaches 0, counting iterations past the
first. -/
def log2_u64 (y : ℕ) : ℕ := log2_go y y

/-- raplcap-msr.c get_bits: extract the inclusive bit range [first, last]. -/
def get_bits (msrval first last : ℕ) : ℕ :=
  (msrval >>> first) &&& (2 ^ (last - first + 1) - 1)

/-- replace_bits, identical in raplcap-msr-common.c and raplcap-msr.c:
replace the inclusive bit range [first, last] of msrval with the low bits of
data, leaving all other bits in place. -/
def replace_bits (msrval data first last : ℕ) : ℕ :=
  let mask := (2 ^ (last - first + 1) - 1) <<< first
  (msrval &&& compl64 mask) ||| ((data <<< first) &&& mask)

/-- raplcap-cpuid.c cpuid_get_family_model, as a function of the EAX register
returned by cpuid leaf 1.  Family: bits 11:8 OR-combined with bits 23:20
shifted into bits 7:4.  Model: bits 7:4 OR-combined with bits 19:16 shifted
into bits 7:4. -/
def cpuid_get_family_model (eax : ℕ) : ℕ × ℕ :=
  (((eax >>> 8) &&& 0xF) ||| ((eax >>> 16) &&& 0xF0),
   ((eax >>> 4) &&& 0xF) ||| ((eax >>> 12) &&& 0xF0))

/-- The C cast (uint64_t) d of a double.  The cast truncates toward zero; every
call site first asserts its argument nonnegative, where truncation equals the
floor. -/
def dblToU64 (q : ℚ) : ℕ := ⌊q⌋.toNat

/-- raplcap-msr-common.c from_msr_pl_default: watts = power_units * bits. -/
def from_msr_pl_default (bits : ℕ) (power_units : ℚ) : ℚ := power_units * bits

/-- raplcap-msr-common.c to_msr_pl_default: bits = trunc(watts / power_units),
clamped to the 15-bit maximum 0x7FFF. -/
def to_msr_pl_default (watts power_units : ℚ) : ℕ :=
  let bits := dblToU64 (watts / power_units)
  if bits > 0x7FFF then 0x7FFF else bits

/-- raplcap-msr-common.c to_msr_pl4_default: same conversion with a 13-bit
maximum 0x1FFF. -/
def to_msr_pl4_default (watts power_units : ℚ) : ℕ :=
  let bits := dblToU64 (watts / power_units)
  if bits > 0x1FFF then 0x1FFF else bits

/-- raplcap-msr-common.c to_msr_pl_psys_spr: same conversion with a 17-bit
maximum 0x1FFFF. -/
def to_msr_pl_psys_spr (watts power_units : ℚ) : ℕ :=
  let bits := dblToU64 (watts / power_units)
  if bits > 0x1FFFF then 0x1FFFF else bits

/-- raplcap-msr-common.c to_msr_pl4_meteorlake: same conversion with a 16-bit
maximum 0xFFFF. -/
def to_msr_pl4_meteorlake (watts power_units : ℚ) : ℕ :=
  let bits := dblToU64 (watts / power_units)
  if bits > 0xFFFF then 0xFFFF else bits

/-- raplcap-msr-common.c to_msr_tw_default: clamp t = seconds/time_units to
[1, 2^32-1], then y = log2(t), f = (4t)/2^y - 4, packed as y | f shifted 5. -/
def to_msr_tw_default (seconds time_units : ℚ) : ℕ :=
  let t : ℚ := seconds / time_units
  let t := if t < 1 then 1 else if t > (4294967295 : ℚ) then (4294967295 : ℚ) else t
  let y := log2_u64 (dblToU64 t)
  let f := dblToU64 (4 * t) / pow2_u64 y - 4
  (y &&& 0x1F) ||| ((f &&& 0x3) <<< 5)

/-- raplcap-msr-common.c to_msr_tw_atom: round seconds/time_units to the
nearest integer, with 0 meaning one second and a 7-bit maximum. -/
def to_msr_tw_atom (seconds time_units : ℚ) : ℕ :=
  let t : ℚ := seconds / time_units
  if seconds < 1 then 0x0
  else if t > (0x7F : ℚ) then 0x7F
  else dblToU64 (t + 1 / 2)

/-- raplcap-msr-common.c to_msr_tw_atom_airmont: round seconds to the nearest
multiple of 5 seconds, clamped to [1 second, 50 seconds]; time_units unused. -/
def to_msr_tw_atom_airmont (seconds _time_units : ℚ) : ℕ :=
  if seconds < 1 then 0x0
  else if seconds > 50 then 0xA
  else dblToU64 (seconds / 5 + 1 / 2)

/-- Tag for the to_msr_pl function pointer of raplcap_msr_zone_cfg. -/
inductive PlCodec where
  | dflt
  | psysSpr
  deriving DecidableEq

/-- Tag for the to_msr_tw function pointer of raplcap_msr_zone_cfg. -/
inductive TwCodec where
  | dflt
  | atom
  | atomAirmont
  deriving DecidableEq

/-- Tag for the to_msr_pl4 function pointer of raplcap_msr_zone_cfg. -/
inductive Pl4Codec where
  | dflt
  | meteorlake
  deriving DecidableEq

/-- Dispatch of the to_msr_pl function pointer. -/
def applyPl : PlCodec → ℚ → ℚ → ℕ
  | .dflt => to_msr_pl_default
  | .psysSpr => to_msr_pl_psys_spr

/-- Dispatch of the to_msr_tw function pointer. -/
def applyTw : TwCodec → ℚ → ℚ → ℕ
  | .dflt => to_msr_tw_default
  | .atom => to_msr_tw_atom
  | .atomAirmont => to_msr_tw_atom_airmont

/-- Dispatch of the to_msr_pl4 function pointer. -/
def applyPl4 : Pl4Codec → ℚ → ℚ → ℕ
  | .dflt => to_msr_pl4_default
  | .meteorlake => to_msr_pl4_meteorlake

/-- raplcap_msr_zone_cfg (raplcap-msr-common.h): per-zone encode dispatch and
the number of supported constraints.  The from_msr decode pointers are not
carried because no modelled operation dispatches them. -/
structure ZoneCfg where
  to_msr_tw : TwCodec
  to_msr_pl : PlCodec
  to_msr_pl4 : Pl4Codec
  constraints : ℕ

/-- Zone indices of the raplcap_zone enum (raplcap.h). -/
def RAPLCAP_ZONE_PACKAGE : ℕ := 0
def RAPLCAP_ZONE_CORE : ℕ := 1
def RAPLCAP_ZONE_UNCORE : ℕ := 2
def RAPLCAP_ZONE_DRAM : ℕ := 3
def RAPLCAP_ZONE_PSYS : ℕ := 4
def RAPLCAP_NZONES : ℕ := 5

/-- CPUID model codes referenced by raplcap-msr-common.c.  They come from the
raplcap-cpuid.h revision that file is built against (the header under src/ is
an older revision without them); values per the Intel SDM model tables. -/
def CPUID_MODEL_SAPPHIRERAPIDS_X : ℕ := 0x8F
def CPUID_MODEL_EMERALDRAPIDS_X : ℕ := 0xCF
def CPUID_MODEL_METEORLAKE_L : ℕ := 0xAA
def CPUID_MODEL_LUNARLAKE_M : ℕ := 0xBD

/-- raplcap_msr_ctx (raplcap-msr-common.h): per-model codec context.  Zones are
indexed by the raplcap_zone value; cfg is total on Nat, with indices at or
above RAPLCAP_NZONES never consulted by modelled code on validated input. -/
structure MsrCtx where
  cfg : ℕ → ZoneCfg
  power_units : ℚ
  energy_units : ℚ
  energy_units_dram : ℚ
  energy_units_psys : ℚ
  time_units : ℚ
  cpu_model : ℕ

/-- CFG_DEFAULT of raplcap-msr-common.c (PACKAGE and PSYS have 2 constraints,
the rest 1; default codecs everywhere). -/
def cfgDefault : ℕ → ZoneCfg := fun zone =>
  if zone = RAPLCAP_ZONE_PACKAGE ∨ zone = RAPLCAP_ZONE_PSYS then
    ⟨.dflt, .dflt, .dflt, 2⟩
  else
    ⟨.dflt, .dflt, .dflt, 1⟩

/-- raplcap_limit (raplcap.h). -/
structure Limit where
  seconds : ℚ
  watts : ℚ

/-- The condition under which zone_limits_quirks (raplcap-msr-common.c)
adjusts field positions: the PSYS zone on Sapphire Rapids or Emerald Rapids. -/
def limits_quirk (ctx : MsrCtx) (zone : ℕ) : Bool :=
  zone = RAPLCAP_ZONE_PSYS &&
    (ctx.cpu_model = CPUID_MODEL_SAPPHIRERAPIDS_X ||
     ctx.cpu_model = CPUID_MODEL_EMERALDRAPIDS_X)

/-- Last bit of the long-term power-limit field in msr_set_limits. -/
def pl1_last (ctx : MsrCtx) (zone : ℕ) : ℕ := if limits_quirk ctx zone then 16 else 14

/-- First bit of the long-term time-window field in msr_set_limits. -/
def tw1_first (ctx : MsrCtx) (zone : ℕ) : ℕ := if limits_quirk ctx zone then 19 else 17

/-- Last bit of the long-term time-window field in msr_set_limits. -/
def tw1_last (ctx : MsrCtx) (zone : ℕ) : ℕ := if limits_quirk ctx zone then 25 else 23

/-- Last bit of the short-term power-limit field in msr_set_limits. -/
def pl2_last (ctx : MsrCtx) (zone : ℕ) : ℕ := if limits_quirk ctx zone then 48 else 46

/-- First bit of the short-term time-window field in msr_set_limits. -/
def tw2_first (ctx : MsrCtx) (zone : ℕ) : ℕ := if limits_quirk ctx zone then 51 else 49

/-- Last bit of the short-term time-window field in msr_set_limits. -/
def tw2_last (ctx : MsrCtx) (zone : ℕ) : ℕ := if limits_quirk ctx zone then 57 else 55

/-- HAS_SHORT_TERM macro of raplcap-msr-common.c. -/
def has_short_term (ctx : MsrCtx) (zone : ℕ) : Bool := (ctx.cfg zone).constraints > 1

/-- raplcap-msr-common.c msr_set_limits: read-modify-write of the power-limit
register image.  A NULL limit pointer is an Option none; a watts or seconds
value not greater than 0 skips that field; the short-term time window is never
written for PSYS. -/
def msr_set_limits (ctx : MsrCtx) (zone : ℕ) (msrval : ℕ)
    (limit_long limit_short : Option Limit) : ℕ :=
  let m1 :=
    match limit_long with
    | none => msrval
    | some l =>
      let a := if l.watts > 0 then
          replace_bits msrval (applyPl (ctx.cfg zone).to_msr_pl l.watts ctx.power_units)
            0 (pl1_last ctx zone)
        else msrval
      if l.seconds > 0 then
        replace_bits a (applyTw (ctx.cfg zone).to_msr_tw l.seconds ctx.time_units)
          (tw1_first ctx zone) (tw1_last ctx zone)
      else a
  match limit_short with
  | none => m1
  | some l =>
    if has_short_term ctx zone then
      let a := if l.watts > 0 then
          replace_bits m1 (applyPl (ctx.cfg zone).to_msr_pl l.watts ctx.power_units)
            32 (pl2_last ctx zone)
        else m1
      if l.seconds > 0 then
        if zone = RAPLCAP_ZONE_PSYS then a
        else
          replace_bits a (applyTw (ctx.cfg zone).to_msr_tw l.seconds ctx.time_units)
            (tw2_first ctx zone) (tw2_last ctx zone)
      else a
    else m1

/-- Outcome of a positioned 8-byte register read (raplcap-msr.c
read_msr_by_offset): either the register value, or failure with the errno set
by pread. -/
inductive ReadRes where
  | ok (v : ℕ)
  | err (e : ℕ)
  deriving DecidableEq

/-- errno EIO, the error the msr device driver reports for a faulting
register read. -/
def errnoEio : ℕ := 5

/-- errno EINVAL, set by the parameter checks. -/
def errnoEinval : ℕ := 22

/-- Oracle for the OS register-read service consumed by raplcap-msr.c,
indexed by file descriptor and register offset. -/
structure MsrEnv where
  read : ℕ → ℕ → ReadRes

/-- raplcap_msr (raplcap-msr.c): the backend state held behind the context's
state pointer.  The cfg entries of this file have no to_msr_pl4 column; the
shared ZoneCfg carries one, which this layer never dispatches. -/
structure MsrState where
  fds : List ℕ
  power_units : ℚ
  time_units : ℚ
  cfg : ℕ → ZoneCfg
  cpu_model : ℕ

/-- raplcap (raplcap.h): public context with package count and opaque state. -/
structure Raplcap where
  nsockets : ℕ
  state : Option MsrState

/-- raplcap-msr.c get_state: parameter validation; NULL (with errno EINVAL)
when the context is uninitialized or the socket index is out of range. -/
def get_state (rc : Raplcap) (socket : ℕ) : Option MsrState :=
  match rc.state with
  | none => none
  | some st => if rc.nsockets = 0 ∨ socket ≥ rc.nsockets then none else some st

/-- raplcap-msr.c zone_to_msr_offset: the power-limit register offset of each
zone; none (errno EINVAL) for a zone value outside the enum range. -/
def zone_to_msr_offset (zone : ℕ) : Option ℕ :=
  if zone < RAPLCAP_NZONES then
    some (List.getD [0x610, 0x638, 0x640, 0x618, 0x65C] zone 0)
  else none

/-- raplcap-msr.c is_zone_enabled: result and the errno observable by the
caller when the result is negative.  On success the zone counts as enabled
when bit 15 is set and, for a zone with more than one constraint, bit 47 is
set as well. -/
def is_zone_enabled (env : MsrEnv) (rc : Raplcap) (socket zone : ℕ) : ℤ × ℕ :=
  match get_state rc socket with
  | none => (-1, errnoEinval)
  | some st =>
    match zone_to_msr_offset zone with
    | none => (-1, errnoEinval)
    | some msr =>
      match env.read (st.fds.getD socket 0) msr with
      | .err e => (-1, e)
      | .ok msrval =>
        if get_bits msrval 15 15 = 0x1 ∧
            ((st.cfg zone).constraints > 1 → get_bits msrval 47 47 = 0x1) then
          (1, 0)
        else (0, 0)

/-- raplcap-msr.c raplcap_is_zone_supported: a 0 probe result becomes 1
(supported); a negative result with errno EIO becomes 0 (not supported);
other errors pass through. -/
def raplcap_is_zone_supported (env : MsrEnv) (rc : Raplcap) (socket zone : ℕ) : ℤ :=
  let r := is_zone_enabled env rc socket zone
  if r.1 = 0 then 1
  else if r.1 < 0 ∧ r.2 = errnoEio then 0
  else r.1

/-- 0xFFFFFFFF, both the uint32_t maximum and the sentinel of min_gt_u32. -/
def UINT32_MAX : ℕ := 2 ^ 32 - 1

/-- Sorted insertion for uint32 values, realizing the qsort call with cmp_u32
in raplcap-msr.c. -/
def insertU32 (x : ℕ) : List ℕ → List ℕ
  | [] => [x]
  | y :: ys => if x ≤ y then x :: y :: ys else y :: insertU32 x ys

/-- Sorting by cmp_u32 (raplcap-msr.c). -/
def sortU32 : List ℕ → List ℕ
  | [] => []
  | x :: xs => insertU32 x (sortU32 xs)

/-- raplcap-msr.c count_unique_u32: sort a copy, then count entries that
differ from their predecessor. -/
def count_unique_u32 (arr : List ℕ) : ℕ :=
  match sortU32 arr with
  | [] => 0
  | x :: xs => 1 + (List.zip (x :: xs) xs).countP (fun p => p.1 ≠ p.2)

/-- raplcap-msr.c min_gt_u32: minimum entry strictly greater than gt, where
gt = UINT32_MAX means no lower bound; UINT32_MAX when none is found. -/
def min_gt_u32 (arr : List ℕ) (gt : ℕ) : ℕ :=
  arr.foldl (fun m a => if a < m ∧ (gt = UINT32_MAX ∨ a > gt) then a else m) UINT32_MAX

/-- The loop of normalize_to_indexes: at iteration i, find the smallest entry
above the previous minimum and replace all its occurrences with i. -/
def normalize_go : ℕ → List ℕ → ℕ → ℕ → List ℕ
  | 0, arr, _, _ => arr
  | k + 1, arr, last_min, i =>
    let m := min_gt_u32 arr last_min
    normalize_go k (arr.map fun a => if a = m then i else a) m (i + 1)

/-- raplcap-msr.c normalize_to_indexes: rewrite the array so its values lie in
[0, nidx) while preserving relative order; nidx must be the number of unique
entries. -/
def normalize_to_indexes (arr : List ℕ) (nidx : ℕ) : List ℕ :=
  normalize_go nidx arr UINT32_MAX 0

/-- msr_topology (raplcap-msr-sys-linux.c): package id, die id and logical
CPU id of one enumerated CPU. -/
structure MsrTopology where
  pkg : ℕ
  die : ℕ
  cpu : ℕ
  deriving DecidableEq

/-- cmp_msr_topology_pkg_die order: by package id, then die id.  CPUs that tie
on both keys compare equal, so qsort may order them arbitrarily. -/
def topoLe (a b : MsrTopology) : Bool :=
  a.pkg < b.pkg || (a.pkg = b.pkg && a.die ≤ b.die)

/-- Sorted insertion realizing the qsort call with cmp_msr_topology_pkg_die;
stable, one admissible outcome of the unstable qsort (only representative-CPU
choice among equal keys depends on it). -/
def insertTopo (x : MsrTopology) : List MsrTopology → List MsrTopology
  | [] => [x]
  | y :: ys => if topoLe x y then x :: y :: ys else y :: insertTopo x ys

/-- Sorting by cmp_msr_topology_pkg_die (raplcap-msr-sys-linux.c). -/
def sortTopo : List MsrTopology → List MsrTopology
  | [] => []
  | x :: xs => insertTopo x (sortTopo xs)

/-- Pairs of adjacent entries of a sorted topology list. -/
def topoAdjPairs (l : List MsrTopology) : List (MsrTopology × MsrTopology) :=
  match l with
  | [] => []
  | x :: xs => List.zip (x :: xs) xs

/-- raplcap-msr-sys-linux.c count_unique_pkg_die: number of distinct
(package, die) pairs in a pre-sorted topology. -/
def count_unique_pkg_die (topo : List MsrTopology) : ℕ :=
  match topo with
  | [] => 0
  | _ :: _ => 1 + (topoAdjPairs topo).countP (fun p => p.1.pkg ≠ p.2.pkg ∨ p.1.die ≠ p.2.die)

/-- raplcap-msr-sys-linux.c get_cpus_to_open: the first CPU of each distinct
(package, die) run in a pre-sorted topology. -/
def get_cpus_to_open (topo : List MsrTopology) : List ℕ :=
  match topo with
  | [] => []
  | x :: xs =>
    x.cpu :: ((topoAdjPairs (x :: xs)).filter
      (fun p => p.1.pkg ≠ p.2.pkg ∨ p.1.die ≠ p.2.die)).map (fun p => p.2.cpu)

/-- Builds the per-CPU topology list from a (pkg, die) enumeration, CPU ids
being list positions — the shape get_topology produces when the per-CPU sysfs
reads succeed. -/
def topoOfPkgDie (l : List (ℕ × ℕ)) : List MsrTopology :=
  (List.enum l).map (fun p => ⟨p.2.1, p.2.2, p.1⟩)

/-- raplcap_msr_sys_ctx (raplcap-msr-sys-linux.c): counts plus the opened
descriptors; the model records the CPUs whose register device was opened. -/
structure SysCtx where
  n_pkg : ℕ
  n_die : ℕ
  n_fds : ℕ
  cpus : List ℕ
  deriving DecidableEq

/-- raplcap-msr-sys-linux.c msr_sys_init on an enumeration whose topology
reads succeed: sort by (package, die), take the counts from the last (largest)
entry, count the unique pairs, and open one descriptor per unique pair for its
representative CPU; openOk tells which per-CPU opens succeed.  There is no
check that packages have equal die counts — the code only assumes it. -/
def msr_sys_init (openOk : ℕ → Bool) (pkg_die : List (ℕ × ℕ)) : Option SysCtx :=
  match sortTopo (topoOfPkgDie pkg_die) with
  | [] => none
  | t :: ts =>
    let sorted := t :: ts
    let lastT := sorted.getLast (by simp)
    let n_fds := count_unique_pkg_die sorted
    let cpus := get_cpus_to_open sorted
    if cpus.all openOk then
      some ⟨lastT.pkg + 1, lastT.die + 1, n_fds, cpus⟩
    else none

/-- raplcap-msr-sys-linux.c msr_get_num_pkg_die with a NULL context (ad hoc
discovery): sort the enumerated topology and report the last package id plus
one and the last die id plus one. -/
def msr_get_num_pkg_die (pkg_die : List (ℕ × ℕ)) : Option (ℕ × ℕ) :=
  match sortTopo (topoOfPkgDie pkg_die) with
  | [] => none
  | t :: ts =>
    let lastT := (t :: ts).getLast (by simp)
    some (lastT.pkg + 1, lastT.die + 1)

/-- Whether every package of an enumeration exposes the same number of
distinct dies — the homogeneity property the specification requires. -/
def dieHomogeneous (pkg_die : List (ℕ × ℕ)) : Bool :=
  let pkgs := (pkg_die.map Prod.fst).dedup
  let dieCount := fun p => ((pkg_die.filter (fun q => q.1 = p)).map Prod.snd).dedup.length
  match pkgs with
  | [] => true
  | p :: ps => ps.all (fun q => dieCount q = dieCount p)

/-- Open-descriptor bookkeeping for the lifecycle model: the next descriptor
the OS would hand out (starting above 0, as the code treats fd 0 as unused)
and the descriptors currently open in the process. -/
structure World where
  nextFd : ℕ
  openFds : List ℕ
  deriving DecidableEq

/-- Environment of raplcap_init (raplcap-msr.c): whether cpuid reports a
supported Intel CPU, the per-CPU physical package ids read from sysfs (its
length is the online CPU count), and whether the MSR_RAPL_POWER_UNIT read
succeeds.  Allocation always succeeds; opens always succeed, handing out
fresh descriptors (open failure handling is exercised through readUnitsOk,
which triggers the same rollback path). -/
structure InitEnv where
  cpuSupported : Bool
  cpuToSocket : List ℕ
  readUnitsOk : Bool

/-- raplcap-msr.c open_msrs: walk the CPUs; for each socket index not yet
holding a descriptor, open the CPU's register device. -/
def open_msrs_go : List ℕ → List ℕ → World → List ℕ × World
  | [], fds, w => (fds, w)
  | s :: rest, fds, w =>
    if fds.getD s 0 > 0 then open_msrs_go rest fds w
    else open_msrs_go rest (fds.set s w.nextFd)
      ⟨w.nextFd + 1, w.openFds ++ [w.nextFd]⟩

/-- raplcap-msr.c raplcap_destroy: close every positive descriptor of the
state, drop the state, zero the socket count; a context without state only
zeroes the socket count.  Closes succeed in the model, so the result is 0. -/
def raplcap_destroy (rc : Raplcap) (w : World) : ℤ × Raplcap × World :=
  match rc.state with
  | none => (0, ⟨0, none⟩, w)
  | some st =>
    (0, ⟨0, none⟩, ⟨w.nextFd, w.openFds.filter (fun f => ¬(f > 0 ∧ f ∈ st.fds))⟩)

/-- raplcap-msr.c raplcap_init: check CPU support, read the CPU-to-package
mapping, count unique packages, normalize package ids to dense indices, open
one descriptor per package, then read the unit register (rolling back through
raplcap_destroy on failure).  The unit-conversion switch that follows the
read writes pure per-model fields; the model fills them with fixed values as
they do not affect handles or the result.  There is no guard against a
context that is already initialized. -/
def raplcap_init (env : InitEnv) (rc : Raplcap) (w : World) : ℤ × Raplcap × World :=
  if ¬env.cpuSupported then (-1, rc, w)
  else if env.cpuToSocket.length = 0 then (-1, rc, w)
  else
    let ns := count_unique_u32 env.cpuToSocket
    let mapping := normalize_to_indexes env.cpuToSocket ns
    let (fds, w1) := open_msrs_go mapping (List.replicate ns 0) w
    let rc1 : Raplcap := ⟨ns, some ⟨fds, 1, 1, cfgDefault, 0⟩⟩
    if env.readUnitsOk then (0, rc1, w1)
    else
      let d := raplcap_destroy rc1 w1
      (-1, d.2.1, d.2.2)

/-! Theorems. -/

theorem mask_testBit (f l i : ℕ) (hfl : f ≤ l) :
    (((2 ^ (l - f + 1) - 1) <<< f).testBit i) = (decide (f ≤ i) && decide (i ≤ l)) := by
  rw [Nat.testBit_shiftLeft, Nat.testBit_two_pow_sub_one]
  by_cases h : f ≤ i
  · simp only [ge_iff_le, h]
    congr 1
    exact decide_eq_decide.mpr (by omega)
  · simp [h]

theorem uint64_mask_testBit (i : ℕ) : UINT64_MASK.testBit i = decide (i < 64) := by
  rw [UINT64_MASK, Nat.testBit_two_pow_sub_one]

theorem replace_bits_testBit_outside (m d f l i : ℕ) (hfl : f ≤ l) (hi : i < 64)
    (h : i < f ∨ l < i) : (replace_bits m d f l).testBit i = m.testBit i := by
  have hm : (((2 ^ (l - f + 1) - 1) <<< f).testBit i) = false := by
    rw [mask_testBit f l i hfl]
    have h' : ¬ f ≤ i ∨ ¬ i ≤ l := by omega
    rcases h' with h' | h' <;> simp [h']
  rw [replace_bits]
  simp only [Nat.testBit_lor, Nat.testBit_land, compl64, Nat.testBit_xor,
    uint64_mask_testBit, hm]
  simp [hi]

theorem replace_bits_testBit_inside (m d f l i : ℕ) (hl : l < 64) (h1 : f ≤ i) (h2 : i ≤ l) :
    (replace_bits m d f l).testBit i = d.testBit (i - f) := by
  have hfl : f ≤ l := le_trans h1 h2
  have hi : i < 64 := lt_of_le_of_lt h2 hl
  have hm : (((2 ^ (l - f + 1) - 1) <<< f).testBit i) = true := by
    rw [mask_testBit f l i hfl]; simp [h1, h2]
  rw [replace_bits]
  simp only [Nat.testBit_lor, Nat.testBit_land, compl64, Nat.testBit_xor,
    uint64_mask_testBit, hm, Nat.testBit_shiftLeft, ge_iff_le]
  simp [h1, hi]

/-- C10: replace_bits agrees with msrval on every bit position outside the
inclusive range [first, last], and carries the low bits of data at positions
[first, last] (bit i of the result is bit i - first of data). -/
theorem replace_bits_spec (msrval data first last : ℕ)
    (hfl : first ≤ last) (hlast : last < 64) (i : ℕ) (hi : i < 64) :
    ((i < first ∨ last < i) →
        (replace_bits msrval data first last).testBit i = msrval.testBit i) ∧
      (first ≤ i → i ≤ last →
        (replace_bits msrval data first last).testBit i = data.testBit (i - first)) :=
  ⟨fun h => replace_bits_testBit_outside msrval data first last i hfl hi h,
   fun h1 h2 => replace_bits_testBit_inside msrval data first last i hlast h1 h2⟩

/-- Witness for C10 at a concrete input: replacing bits [16, 23] of an
all-ones register with data 0 leaves bit 15 set, clears bit 16, and keeps
bit 24. -/
theorem replace_bits_spec_witness :
    (replace_bits UINT64_MASK 0 16 23).testBit 15 = true ∧
      (replace_bits UINT64_MASK 0 16 23).testBit 16 = false ∧
      (replace_bits UINT64_MASK 0 16 23).testBit 24 = true := by
  refine ⟨?_, ?_, ?_⟩
  · rw [(replace_bits_spec UINT64_MASK 0 16 23 (by decide) (by decide) 15 (by decide)).1
      (by decide)]
    decide
  · rw [(replace_bits_spec UINT64_MASK 0 16 23 (by decide) (by decide) 16 (by decide)).2
      (by decide) (by decide)]
    decide
  · rw [(replace_bits_spec UINT64_MASK 0 16 23 (by decide) (by decide) 24 (by decide)).1
      (by decide)]
    decide

theorem land_two_pow_sub_one (x n : ℕ) : x &&& (2 ^ n - 1) = x % 2 ^ n := by
  apply Nat.eq_of_testBit_eq
  intro i
  rw [Nat.testBit_land, Nat.testBit_two_pow_sub_one, Nat.testBit_mod_two_pow,
    Bool.and_comm]

theorem land_two_pow_shifted (x k n : ℕ) (hn : 0 < n) :
    x &&& ((2 ^ n - 1) <<< k) = 2 ^ k * (x / 2 ^ k % 2 ^ n) := by
  apply Nat.eq_of_testBit_eq
  intro i
  have hmask : ((2 ^ n - 1) <<< k).testBit i = (decide (k ≤ i) && decide (i ≤ k + n - 1)) := by
    have h := mask_testBit k (k + n - 1) i (by omega)
    rw [show k + n - 1 - k + 1 = n by omega] at h
    exact h
  rw [Nat.testBit_land, hmask, Nat.testBit_mul_pow_two, Nat.testBit_mod_two_pow,
    ← Nat.shiftRight_eq_div_pow, Nat.testBit_shiftRight]
  by_cases h : k ≤ i
  · have hki : k + (i - k) = i := by omega
    by_cases h2 : i ≤ k + n - 1
    · have h3 : i - k < n := by omega
      simp [ge_iff_le, h, h2, h3, hki, Bool.and_comm]
    · have h3 : ¬ (i - k < n) := by omega
      simp [ge_iff_le, h, h2, h3]
  · simp [ge_iff_le, h]

theorem lor_low_eq_add (a c k : ℕ) (h : a < 2 ^ k) : a ||| 2 ^ k * c = 2 ^ k * c + a := by
  apply Nat.eq_of_testBit_eq
  intro i
  rw [Nat.testBit_lor, Nat.testBit_mul_pow_two,
    Nat.testBit_mul_pow_two_add c h i]
  by_cases hik : i < k
  · have : ¬ i ≥ k := by omega
    simp [hik, this]
  · have ha : a.testBit i = false :=
      Nat.testBit_eq_false_of_lt (lt_of_lt_of_le h (Nat.pow_le_pow_right (by norm_num) (by omega)))
    simp [hik, ha]; omega

/-- Counterexample for C9: on EAX = 0x00100600 the base family (bits 11:8) is
6, not 0xF, yet cpuid_get_family_model reports family 0x16: the extended bits
contribute even though the base family is not 0xF, contradicting the claim
that they contribute only when it is. -/
theorem cpuid_family_extended_bits_counterexample :
    (cpuid_get_family_model 0x00100600).1 = 0x16 ∧
      (0x00100600 >>> 8) &&& 0xF = 6 ∧ (6 : ℕ) ≠ 0xF ∧ (0x16 : ℕ) ≠ 6 := by
  refine ⟨?_, by decide, by decide, by decide⟩
  decide

/-- C9 (amended): for every EAX value, the reported family is bits 11:8 plus
16 times bits 23:20 (the low four extended-family bits, applied
unconditionally; bits 27:24 are ignored), and the reported model is bits 7:4
plus 16 times bits 19:16 (also unconditionally). -/
theorem cpuid_get_family_model_bits (eax : ℕ) :
    (cpuid_get_family_model eax).1 = eax / 2 ^ 8 % 16 + 16 * (eax / 2 ^ 20 % 16) ∧
      (cpuid_get_family_model eax).2 = eax / 2 ^ 4 % 16 + 16 * (eax / 2 ^ 16 % 16) := by
  have h15 : (0xF : ℕ) = 2 ^ 4 - 1 := by decide
  have h240 : (0xF0 : ℕ) = (2 ^ 4 - 1) <<< 4 := by decide
  constructor
  · show ((eax >>> 8) &&& 0xF) ||| ((eax >>> 16) &&& 0xF0) = _
    rw [h15, h240, land_two_pow_sub_one, land_two_pow_shifted _ 4 4 (by norm_num),
      Nat.shiftRight_eq_div_pow, Nat.shiftRight_eq_div_pow,
      Nat.div_div_eq_div_mul]
    rw [lor_low_eq_add _ _ 4 (by
      have := Nat.mod_lt (eax / 2 ^ 8) (show 0 < 2 ^ 4 by norm_num)
      omega)]
    omega
  · show ((eax >>> 4) &&& 0xF) ||| ((eax >>> 12) &&& 0xF0) = _
    rw [h15, h240, land_two_pow_sub_one, land_two_pow_shifted _ 4 4 (by norm_num),
      Nat.shiftRight_eq_div_pow, Nat.shiftRight_eq_div_pow,
      Nat.div_div_eq_div_mul]
    rw [lor_low_eq_add _ _ 4 (by
      have := Nat.mod_lt (eax / 2 ^ 4) (show 0 < 2 ^ 4 by norm_num)
      omega)]
    omega

theorem limits_layout (ctx : MsrCtx) (zone : ℕ) :
    pl1_last ctx zone ≤ 16 ∧ 17 ≤ tw1_first ctx zone ∧
      tw1_first ctx zone ≤ tw1_last ctx zone ∧ tw1_last ctx zone ≤ 25 ∧
      32 ≤ pl2_last ctx zone ∧ pl2_last ctx zone ≤ 48 ∧
      49 ≤ tw2_first ctx zone ∧ tw2_first ctx zone ≤ tw2_last ctx zone ∧
      tw2_last ctx zone ≤ 57 := by
  unfold pl1_last tw1_first tw1_last pl2_last tw2_first tw2_last
  by_cases hq : limits_quirk ctx zone <;> simp [hq]

theorem msr_set_limits_testBit_frame (ctx : MsrCtx) (zone msrval : ℕ)
    (ll ls : Option Limit) (i : ℕ) (hi : i < 64)
    (hpl1 : ∀ l, ll = some l → l.watts > 0 → ¬ i ≤ pl1_last ctx zone)
    (htw1 : ∀ l, ll = some l → l.seconds > 0 →
      ¬ (tw1_first ctx zone ≤ i ∧ i ≤ tw1_last ctx zone))
    (hpl2 : ∀ l, ls = some l → l.watts > 0 → ¬ (32 ≤ i ∧ i ≤ pl2_last ctx zone))
    (htw2 : ∀ l, ls = some l → l.seconds > 0 →
      ¬ (tw2_first ctx zone ≤ i ∧ i ≤ tw2_last ctx zone)) :
    (msr_set_limits ctx zone msrval ll ls).testBit i = msrval.testBit i := by
  obtain ⟨b1, b2, b3, b4, b5, b6, b7, b8, b9⟩ := limits_layout ctx zone
  unfold msr_set_limits
  have hm1 : ∀ v : ℕ,
      (match ll with
        | none => v
        | some l =>
          let a := if l.watts > 0 then
              replace_bits v (applyPl (ctx.cfg zone).to_msr_pl l.watts ctx.power_units)
                0 (pl1_last ctx zone)
            else v
          if l.seconds > 0 then
            replace_bits a (applyTw (ctx.cfg zone).to_msr_tw l.seconds ctx.time_units)
              (tw1_first ctx zone) (tw1_last ctx zone)
          else a).testBit i = v.testBit i := by
    intro v
    cases ll with
    | none => rfl
    | some l =>
      simp only
      have ha : (if l.watts > 0 then
          replace_bits v (applyPl (ctx.cfg zone).to_msr_pl l.watts ctx.power_units)
            0 (pl1_last ctx zone)
          else v).testBit i = v.testBit i := by
        split
        case isTrue hw =>
          exact replace_bits_testBit_outside _ _ _ _ i (Nat.zero_le _) hi
            (Or.inr (by have := hpl1 l rfl hw; omega))
        case isFalse hw => rfl
      split
      case isTrue hs =>
        rw [replace_bits_testBit_outside _ _ _ _ i b3 hi
          (by have := htw1 l rfl hs; omega), ha]
      case isFalse hs => exact ha
  cases ls with
  | none => exact hm1 msrval
  | some s =>
    simp only
    split
    case isFalse hshort => exact hm1 msrval
    case isTrue hshort =>
      have ha : (if s.watts > 0 then
          replace_bits
            (match ll with
              | none => msrval
              | some l =>
                let a := if l.watts > 0 then
                    replace_bits msrval (applyPl (ctx.cfg zone).to_msr_pl l.watts ctx.power_units)
                      0 (pl1_last ctx zone)
                  else msrval
                if l.seconds > 0 then
                  replace_bits a (applyTw (ctx.cfg zone).to_msr_tw l.seconds ctx.time_units)
                    (tw1_first ctx zone) (tw1_last ctx zone)
                else a)
            (applyPl (ctx.cfg zone).to_msr_pl s.watts ctx.power_units)
            32 (pl2_last ctx zone)
          else
          (match ll with
            | none => msrval
            | some l =>
              let a := if l.watts > 0 then
                  replace_bits msrval (applyPl (ctx.cfg zone).to_msr_pl l.watts ctx.power_units)
                    0 (pl1_last ctx zone)
                else msrval
              if l.seconds > 0 then
                replace_bits a (applyTw (ctx.cfg zone).to_msr_tw l.seconds ctx.time_units)
                  (tw1_first ctx zone) (tw1_last ctx zone)
              else a)).testBit i = msrval.testBit i := by
        split
        case isTrue hw =>
          rw [replace_bits_testBit_outside _ _ _ _ i b5 hi
            (by have := hpl2 s rfl hw; omega)]
          exact hm1 msrval
        case isFalse hw => exact hm1 msrval
      split
      case isTrue hs =>
        split
        case isTrue hz => exact ha
        case isFalse hz =>
          rw [replace_bits_testBit_outside _ _ _ _ i b8 hi
            (by have := htw2 s rfl hs; omega)]
          exact ha
      case isFalse hs => exact ha

/-- C3: in msr_set_limits a watts value of exactly 0 leaves the corresponding
power-limit bits of the register unchanged and a seconds value of exactly 0
leaves the corresponding time-window bits unchanged (0 is a leave-unchanged
sentinel), and bits outside the four provided fields are never modified —
for every context, zone, 64-bit register value and limit pair. -/
theorem msr_set_limits_zero_sentinel (ctx : MsrCtx) (zone msrval : ℕ)
    (ll ls : Option Limit) (i : ℕ) (hi : i < 64) :
    (∀ l, ll = some l → l.watts = 0 → i ≤ pl1_last ctx zone →
        (msr_set_limits ctx zone msrval ll ls).testBit i = msrval.testBit i) ∧
      (∀ l, ll = some l → l.seconds = 0 →
        tw1_first ctx zone ≤ i → i ≤ tw1_last ctx zone →
        (msr_set_limits ctx zone msrval ll ls).testBit i = msrval.testBit i) ∧
      (∀ l, ls = some l → l.watts = 0 → 32 ≤ i → i ≤ pl2_last ctx zone →
        (msr_set_limits ctx zone msrval ll ls).testBit i = msrval.testBit i) ∧
      (∀ l, ls = some l → l.seconds = 0 →
        tw2_first ctx zone ≤ i → i ≤ tw2_last ctx zone →
        (msr_set_limits ctx zone msrval ll ls).testBit i = msrval.testBit i) ∧
      (¬ i ≤ pl1_last ctx zone →
        ¬ (tw1_first ctx zone ≤ i ∧ i ≤ tw1_last ctx zone) →
        ¬ (32 ≤ i ∧ i ≤ pl2_last ctx zone) →
        ¬ (tw2_first ctx zone ≤ i ∧ i ≤ tw2_last ctx zone) →
        (msr_set_limits ctx zone msrval ll ls).testBit i = msrval.testBit i) := by
  obtain ⟨b1, b2, b3, b4, b5, b6, b7, b8, b9⟩ := limits_layout ctx zone
  refine ⟨?_, ?_, ?_, ?_, ?_⟩
  · intro l hll hw hip
    refine msr_set_limits_testBit_frame ctx zone msrval ll ls i hi ?_ ?_ ?_ ?_
    · intro l' hl' hw'
      rw [hll] at hl'
      cases hl'
      rw [hw] at hw'
      exact absurd hw' (lt_irrefl 0)
    · intro l' _ _; omega
    · intro l' _ _; omega
    · intro l' _ _; omega
  · intro l hll hs h1 h2
    refine msr_set_limits_testBit_frame ctx zone msrval ll ls i hi ?_ ?_ ?_ ?_
    · intro l' _ _; omega
    · intro l' hl' hs'
      rw [hll] at hl'
      cases hl'
      rw [hs] at hs'
      exact absurd hs' (lt_irrefl 0)
    · intro l' _ _; omega
    · intro l' _ _; omega
  · intro l hls hw h1 h2
    refine msr_set_limits_testBit_frame ctx zone msrval ll ls i hi ?_ ?_ ?_ ?_
    · intro l' _ _; omega
    · intro l' _ _; omega
    · intro l' hl' hw'
      rw [hls] at hl'
      cases hl'
      rw [hw] at hw'
      exact absurd hw' (lt_irrefl 0)
    · intro l' _ _; omega
  · intro l hls hs h1 h2
    refine msr_set_limits_testBit_frame ctx zone msrval ll ls i hi ?_ ?_ ?_ ?_
    · intro l' _ _; omega
    · intro l' _ _; omega
    · intro l' _ _; omega
    · intro l' hl' hs'
      rw [hls] at hl'
      cases hl'
      rw [hs] at hs'
      exact absurd hs' (lt_irrefl 0)
  · intro h1 h2 h3 h4
    refine msr_set_limits_testBit_frame ctx zone msrval ll ls i hi ?_ ?_ ?_ ?_
    · intro l' _ _; omega
    · intro l' _ _; omega
    · intro l' _ _; omega
    · intro l' _ _; omega

/-- Witness for C3 at a concrete input: with the default Sandy-Bridge-style
configuration, writing a zero limit pair to the PACKAGE zone leaves the
enable bit 15, the long-term power bit 0 and the lock bit 63 of the register
0x80000000_00808FFF untouched. -/
theorem msr_set_limits_zero_sentinel_witness :
    (msr_set_limits ⟨cfgDefault, 1, 1, 1, 1, 1, 0x2A⟩ RAPLCAP_ZONE_PACKAGE 0x8000000000808FFF
        (some ⟨0, 0⟩) (some ⟨0, 0⟩)).testBit 0 = (0x8000000000808FFF : ℕ).testBit 0 ∧
      (msr_set_limits ⟨cfgDefault, 1, 1, 1, 1, 1, 0x2A⟩ RAPLCAP_ZONE_PACKAGE 0x8000000000808FFF
        (some ⟨0, 0⟩) (some ⟨0, 0⟩)).testBit 15 = (0x8000000000808FFF : ℕ).testBit 15 ∧
      (msr_set_limits ⟨cfgDefault, 1, 1, 1, 1, 1, 0x2A⟩ RAPLCAP_ZONE_PACKAGE 0x8000000000808FFF
        (some ⟨0, 0⟩) (some ⟨0, 0⟩)).testBit 63 = (0x8000000000808FFF : ℕ).testBit 63 := by
  refine ⟨?_, ?_, ?_⟩
  · exact (msr_set_limits_zero_sentinel ⟨cfgDefault, 1, 1, 1, 1, 1, 0x2A⟩
      RAPLCAP_ZONE_PACKAGE 0x8000000000808FFF (some ⟨0, 0⟩) (some ⟨0, 0⟩) 0
      (by decide)).1 ⟨0, 0⟩ rfl rfl (by decide)
  · exact (msr_set_limits_zero_sentinel ⟨cfgDefault, 1, 1, 1, 1, 1, 0x2A⟩
      RAPLCAP_ZONE_PACKAGE 0x8000000000808FFF (some ⟨0, 0⟩) (some ⟨0, 0⟩) 15
      (by decide)).2.2.2.2 (by decide) (by decide) (by decide) (by decide)
  · exact (msr_set_limits_zero_sentinel ⟨cfgDefault, 1, 1, 1, 1, 1, 0x2A⟩
      RAPLCAP_ZONE_PACKAGE 0x8000000000808FFF (some ⟨0, 0⟩) (some ⟨0, 0⟩) 63
      (by decide)).2.2.2.2 (by decide) (by decide) (by decide) (by decide)

theorem get_bits_self_eq_one_iff (m b : ℕ) : get_bits m b b = 1 ↔ m.testBit b = true := by
  unfold get_bits
  rw [show b - b + 1 = 1 by omega, pow_one, show (2 : ℕ) - 1 = 1 from rfl,
    Nat.and_one_is_mod, Nat.shiftRight_eq_div_pow, Nat.testBit_to_div_mod]
  simp

/-- C4: with a successful register read, a zone whose configuration has two
constraints is reported enabled (result 1) exactly when both the long-term
enable bit 15 and the short-term enable bit 47 are set — either bit alone
cleared yields disabled (result 0) — while a one-constraint zone is decided
by bit 15 alone; on a successful read the result is always 0 or 1. -/
theorem is_zone_enabled_composition (env : MsrEnv) (rc : Raplcap) (socket zone : ℕ)
    (st : MsrState) (off msrval : ℕ)
    (hst : get_state rc socket = some st)
    (hoff : zone_to_msr_offset zone = some off)
    (hread : env.read (st.fds.getD socket 0) off = .ok msrval) :
    ((st.cfg zone).constraints = 2 →
      ((is_zone_enabled env rc socket zone).1 = 1 ↔
        (msrval.testBit 15 = true ∧ msrval.testBit 47 = true))) ∧
      ((st.cfg zone).constraints = 1 →
        ((is_zone_enabled env rc socket zone).1 = 1 ↔ msrval.testBit 15 = true)) ∧
      ((is_zone_enabled env rc socket zone).1 = 0 ∨
        (is_zone_enabled env rc socket zone).1 = 1) := by
  have hbit := fun b => get_bits_self_eq_one_iff msrval b
  simp only [is_zone_enabled, hst, hoff, hread]
  refine ⟨?_, ?_, ?_⟩
  · intro hc
    split
    case isTrue h =>
      exact iff_of_true rfl ⟨(hbit 15).mp h.1, (hbit 47).mp (h.2 (by rw [hc]; omega))⟩
    case isFalse h =>
      refine iff_of_false (by decide) ?_
      rintro ⟨h15, h47⟩
      exact h ⟨(hbit 15).mpr h15, fun _ => (hbit 47).mpr h47⟩
  · intro hc
    split
    case isTrue h => exact iff_of_true rfl ((hbit 15).mp h.1)
    case isFalse h =>
      refine iff_of_false (by decide) ?_
      intro h15
      refine h ⟨(hbit 15).mpr h15, ?_⟩
      intro hgt
      rw [hc] at hgt
      omega
  · split
    case isTrue _ => exact Or.inr rfl
    case isFalse _ => exact Or.inl rfl

/-- Witness for C4 at concrete inputs: with bits 15 and 47 set the PACKAGE
zone (two constraints) reports enabled; with only bit 15 set it reports
disabled; the one-constraint CORE zone reports enabled from bit 15 alone. -/
theorem is_zone_enabled_composition_witness :
    (is_zone_enabled ⟨fun _ _ => .ok 0x800000008000⟩
        ⟨1, some ⟨[3], 1, 1, cfgDefault, 0x2A⟩⟩ 0 RAPLCAP_ZONE_PACKAGE).1 = 1 ∧
      (is_zone_enabled ⟨fun _ _ => .ok 0x8000⟩
        ⟨1, some ⟨[3], 1, 1, cfgDefault, 0x2A⟩⟩ 0 RAPLCAP_ZONE_PACKAGE).1 ≠ 1 ∧
      (is_zone_enabled ⟨fun _ _ => .ok 0x8000⟩
        ⟨1, some ⟨[3], 1, 1, cfgDefault, 0x2A⟩⟩ 0 RAPLCAP_ZONE_CORE).1 = 1 := by
  refine ⟨?_, ?_, ?_⟩
  · exact ((is_zone_enabled_composition ⟨fun _ _ => .ok 0x800000008000⟩
      ⟨1, some ⟨[3], 1, 1, cfgDefault, 0x2A⟩⟩ 0 RAPLCAP_ZONE_PACKAGE
      ⟨[3], 1, 1, cfgDefault, 0x2A⟩ 0x610 0x800000008000 rfl rfl rfl).1
      (by decide)).mpr ⟨by decide, by decide⟩
  · intro hcontra
    have h := ((is_zone_enabled_composition ⟨fun _ _ => .ok 0x8000⟩
      ⟨1, some ⟨[3], 1, 1, cfgDefault, 0x2A⟩⟩ 0 RAPLCAP_ZONE_PACKAGE
      ⟨[3], 1, 1, cfgDefault, 0x2A⟩ 0x610 0x8000 rfl rfl rfl).1
      (by decide)).mp hcontra
    exact absurd h.2 (by decide)
  · exact ((is_zone_enabled_composition ⟨fun _ _ => .ok 0x8000⟩
      ⟨1, some ⟨[3], 1, 1, cfgDefault, 0x2A⟩⟩ 0 RAPLCAP_ZONE_CORE
      ⟨[3], 1, 1, cfgDefault, 0x2A⟩ 0x638 0x8000 rfl rfl rfl).2.1
      (by decide)).mpr (by decide)

/-- C7: in an environment whose register-read failures carry the hardware
I/O errno EIO, raplcap_is_zone_supported returns 1 when the read succeeds,
0 when the read fails (the failure is swallowed, not propagated), and a
negative value exactly when the parameters are bad (uninitialized context,
out-of-range package index, or out-of-range zone). -/
theorem raplcap_is_zone_supported_error_policy (env : MsrEnv) (rc : Raplcap)
    (socket zone : ℕ)
    (hE : ∀ fd off e, env.read fd off = .err e → e = errnoEio) :
    (∀ st, get_state rc socket = some st →
      (∀ off v, zone_to_msr_offset zone = some off →
          env.read (st.fds.getD socket 0) off = .ok v →
          raplcap_is_zone_supported env rc socket zone = 1) ∧
      (∀ off e, zone_to_msr_offset zone = some off →
          env.read (st.fds.getD socket 0) off = .err e →
          raplcap_is_zone_supported env rc socket zone = 0)) ∧
      (raplcap_is_zone_supported env rc socket zone < 0 ↔
        (get_state rc socket = none ∨ ¬ zone < RAPLCAP_NZONES)) := by
  have hdef : raplcap_is_zone_supported env rc socket zone =
      (if (is_zone_enabled env rc socket zone).1 = 0 then 1
        else if (is_zone_enabled env rc socket zone).1 < 0 ∧
            (is_zone_enabled env rc socket zone).2 = errnoEio then 0
        else (is_zone_enabled env rc socket zone).1) := rfl
  cases hgs : get_state rc socket with
  | none =>
    have hres : is_zone_enabled env rc socket zone = (-1, errnoEinval) := by
      unfold is_zone_enabled
      rw [hgs]
    have hsup : raplcap_is_zone_supported env rc socket zone = -1 := by
      rw [hdef, hres]
      norm_num [errnoEinval, errnoEio]
    refine ⟨?_, ?_⟩
    · intro st hst
      cases hst
    · rw [hsup]
      exact iff_of_true (by norm_num) (Or.inl rfl)
  | some st =>
    by_cases hz : zone < RAPLCAP_NZONES
    · have hoff : zone_to_msr_offset zone =
          some (List.getD [0x610, 0x638, 0x640, 0x618, 0x65C] zone 0) := by
        unfold zone_to_msr_offset
        rw [if_pos hz]
      cases hr : env.read (st.fds.getD socket 0)
          (List.getD [0x610, 0x638, 0x640, 0x618, 0x65C] zone 0) with
      | ok v =>
        have hres : is_zone_enabled env rc socket zone =
            (if get_bits v 15 15 = 1 ∧
                ((st.cfg zone).constraints > 1 → get_bits v 47 47 = 1) then
              ((1 : ℤ), 0) else (0, 0)) := by
          unfold is_zone_enabled
          rw [hgs, hoff]
          simp only [hr]
        have hsup : raplcap_is_zone_supported env rc socket zone = 1 := by
          rw [hdef, hres]
          split <;> norm_num
        refine ⟨?_, ?_⟩
        · intro st' hst'
          cases hst'
          refine ⟨fun off v' hoff' hr' => hsup, ?_⟩
          intro off e hoff' hr'
          rw [hoff] at hoff'
          cases hoff'
          rw [hr] at hr'
          cases hr'
        · rw [hsup]
          exact iff_of_false (by norm_num) (by simp [hz])
      | err e =>
        have he : e = errnoEio := hE _ _ _ hr
        have hres : is_zone_enabled env rc socket zone = (-1, e) := by
          unfold is_zone_enabled
          rw [hgs, hoff]
          simp only [hr]
        have hsup : raplcap_is_zone_supported env rc socket zone = 0 := by
          rw [hdef, hres, he]
          norm_num
        refine ⟨?_, ?_⟩
        · intro st' hst'
          cases hst'
          refine ⟨?_, fun off e' hoff' hr' => hsup⟩
          intro off v' hoff' hr'
          rw [hoff] at hoff'
          cases hoff'
          rw [hr] at hr'
          cases hr'
        · rw [hsup]
          exact iff_of_false (by norm_num) (by simp [hz])
    · have hoff : zone_to_msr_offset zone = none := by
        unfold zone_to_msr_offset
        rw [if_neg hz]
      have hres : is_zone_enabled env rc socket zone = (-1, errnoEinval) := by
        unfold is_zone_enabled
        rw [hgs, hoff]
      have hsup : raplcap_is_zone_supported env rc socket zone = -1 := by
        rw [hdef, hres]
        norm_num [errnoEinval, errnoEio]
      refine ⟨?_, ?_⟩
      · intro st' hst'
        refine ⟨?_, ?_⟩
        · intro off v hoff' hr'
          rw [hoff] at hoff'
          cases hoff'
        · intro off e hoff' hr'
          rw [hoff] at hoff'
          cases hoff'
      · rw [hsup]
        exact iff_of_true (by norm_num) (Or.inr hz)

/-- Witness for C7 at concrete inputs: in an EIO-failing environment the
probe returns 0 for a readable-context pair whose read fails, 1 when the
read succeeds, and -1 for an out-of-range package index. -/
theorem raplcap_is_zone_supported_error_policy_witness :
    raplcap_is_zone_supported ⟨fun _ _ => .err errnoEio⟩
        ⟨1, some ⟨[3], 1, 1, cfgDefault, 0x2A⟩⟩ 0 RAPLCAP_ZONE_DRAM = 0 ∧
      raplcap_is_zone_supported ⟨fun _ _ => .ok 0⟩
        ⟨1, some ⟨[3], 1, 1, cfgDefault, 0x2A⟩⟩ 0 RAPLCAP_ZONE_PACKAGE = 1 ∧
      raplcap_is_zone_supported ⟨fun _ _ => .ok 0⟩
        ⟨1, some ⟨[3], 1, 1, cfgDefault, 0x2A⟩⟩ 7 RAPLCAP_ZONE_PACKAGE < 0 := by
  refine ⟨?_, ?_, ?_⟩
  · exact ((raplcap_is_zone_supported_error_policy ⟨fun _ _ => .err errnoEio⟩
      ⟨1, some ⟨[3], 1, 1, cfgDefault, 0x2A⟩⟩ 0 RAPLCAP_ZONE_DRAM
      (fun _ _ _ h => by cases h; rfl)).1 ⟨[3], 1, 1, cfgDefault, 0x2A⟩ rfl).2
      0x618 errnoEio rfl rfl
  · exact ((raplcap_is_zone_supported_error_policy ⟨fun _ _ => .ok 0⟩
      ⟨1, some ⟨[3], 1, 1, cfgDefault, 0x2A⟩⟩ 0 RAPLCAP_ZONE_PACKAGE
      (fun _ _ _ h => by cases h)).1 ⟨[3], 1, 1, cfgDefault, 0x2A⟩ rfl).1
      0x610 0 rfl rfl
  · exact (raplcap_is_zone_supported_error_policy ⟨fun _ _ => .ok 0⟩
      ⟨1, some ⟨[3], 1, 1, cfgDefault, 0x2A⟩⟩ 7 RAPLCAP_ZONE_PACKAGE
      (fun _ _ _ h => by cases h)).2.mpr (Or.inl rfl)

/-- C1: for the default power-limit codec with power_units > 0 and watts in
[0, power_units * 0x7FFF], decoding the encoding of w gives
power_units * floor(w / power_units), which lies in (w - power_units, w]:
the round trip is exact within one power_units quantization step. -/
theorem to_msr_pl_default_round_trip (w pu : ℚ) (hpu : 0 < pu) (hw : 0 ≤ w)
    (hmax : w ≤ pu * 0x7FFF) :
    w - pu < from_msr_pl_default (to_msr_pl_default w pu) pu ∧
      from_msr_pl_default (to_msr_pl_default w pu) pu ≤ w := by
  have hq : (0 : ℚ) ≤ w / pu := div_nonneg hw (le_of_lt hpu)
  have hfl : (0 : ℤ) ≤ ⌊w / pu⌋ := Int.floor_nonneg.mpr hq
  have hle : ⌊w / pu⌋ ≤ 0x7FFF := by
    have hdiv : w / pu ≤ (0x7FFF : ℚ) := by
      rw [div_le_iff₀ hpu]
      linarith
    calc ⌊w / pu⌋ ≤ ⌊(0x7FFF : ℚ)⌋ := Int.floor_le_floor hdiv
      _ = 0x7FFF := by norm_num
  have hto : to_msr_pl_default w pu = ⌊w / pu⌋.toNat := by
    unfold to_msr_pl_default dblToU64
    have hno : ¬ (⌊w / pu⌋.toNat > 0x7FFF) := by omega
    simp [hno]
  have hcast : ((⌊w / pu⌋.toNat : ℕ) : ℚ) = ((⌊w / pu⌋ : ℤ) : ℚ) := by
    exact_mod_cast congrArg (fun z : ℤ => (z : ℚ)) (Int.toNat_of_nonneg hfl)
  have hval : from_msr_pl_default (to_msr_pl_default w pu) pu =
      pu * ((⌊w / pu⌋ : ℤ) : ℚ) := by
    rw [hto, from_msr_pl_default, hcast]
  have h1 : ((⌊w / pu⌋ : ℤ) : ℚ) ≤ w / pu := Int.floor_le (w / pu)
  have h2 : w / pu < ((⌊w / pu⌋ : ℤ) : ℚ) + 1 := Int.lt_floor_add_one (w / pu)
  have hwp : pu * (w / pu) = w := by
    field_simp
  constructor
  · rw [hval]
    have := mul_lt_mul_of_pos_left h2 hpu
    rw [hwp] at this
    linarith
  · rw [hval]
    have := mul_le_mul_of_nonneg_left h1 (le_of_lt hpu)
    rw [hwp] at this
    linarith

/-- Witness for C1 at a concrete input: w = 32767 with power_units = 1 round
trips within one unit. -/
theorem to_msr_pl_default_round_trip_witness :
    (0 : ℚ) < 1 ∧ (0 : ℚ) ≤ 32767 ∧ (32767 : ℚ) ≤ 1 * 0x7FFF ∧
      ((32767 : ℚ) - 1 < from_msr_pl_default (to_msr_pl_default 32767 1) 1 ∧
        from_msr_pl_default (to_msr_pl_default 32767 1) 1 ≤ 32767) :=
  ⟨one_pos, by simp, by simp,
    to_msr_pl_default_round_trip 32767 1 one_pos (by simp) (by simp)⟩

/-- C2: the default power-limit encoder computes floor(watts / power_units)
clamped to 0x7FFF — for any natural n with n * pu ≤ w < (n + 1) * pu the
result is min n 0x7FFF, so an over-range value yields exactly 0x7FFF rather
than an error; encoding 0.0000001 W with power_units 0.125 yields 0, and the
over-range 10000 W yields 0x7FFF. -/
theorem to_msr_pl_default_floor_and_clamp :
    (∀ w pu : ℚ, 0 ≤ w → 0 < pu → ∀ n : ℕ,
        (n : ℚ) * pu ≤ w → w < ((n : ℚ) + 1) * pu →
        to_msr_pl_default w pu = min n 0x7FFF) ∧
      to_msr_pl_default (1 / 10000000) (1 / 8) = 0 ∧
      to_msr_pl_default 10000 (1 / 8) = 0x7FFF := by
  have hmain : ∀ w pu : ℚ, 0 ≤ w → 0 < pu → ∀ n : ℕ,
      (n : ℚ) * pu ≤ w → w < ((n : ℚ) + 1) * pu →
      to_msr_pl_default w pu = min n 0x7FFF := by
    intro w pu hw hpu n hlo hhi
    have hfl : ⌊w / pu⌋ = (n : ℤ) := by
      rw [Int.floor_eq_iff]
      constructor
      · rw [le_div_iff₀ hpu]
        exact_mod_cast hlo
      · rw [div_lt_iff₀ hpu]
        push_cast
        exact_mod_cast hhi
    unfold to_msr_pl_default dblToU64
    rw [hfl]
    simp only [Int.toNat_natCast]
    split <;> omega
  refine ⟨hmain, ?_, ?_⟩
  · have h := hmain (1 / 10000000) (1 / 8) (by norm_num) (by norm_num) 0
      (by norm_num) (by norm_num)
    simpa using h
  · have h := hmain 10000 (1 / 8) (by norm_num) (by norm_num) 80000
      (by norm_num) (by norm_num)
    rw [h]
    norm_num

/-- Witness for C2 at a concrete input: encoding 0 W with power_units 1
returns min 0 0x7FFF = 0. -/
theorem to_msr_pl_default_floor_and_clamp_witness :
    to_msr_pl_default 0 1 = min 0 0x7FFF :=
  to_msr_pl_default_floor_and_clamp.1 0 1 (le_refl 0) one_pos 0 (by simp) (by simp)

/-- Counterexample for C5: on raw package IDs {2, 5, 5, 9} with one die each,
msr_get_num_pkg_die reports 10 packages (max raw ID + 1), not 3 (the count of
distinct IDs). -/
theorem msr_get_num_pkg_die_sparse_counterexample :
    msr_get_num_pkg_die [(2, 0), (5, 0), (5, 0), (9, 0)] = some (10, 1) ∧
      (10 : ℕ) ≠ 3 := by
  refine ⟨?_, by decide⟩
  decide

/-- C5 (amended): for raw package IDs {2, 5, 5, 9} with one die each, the
raplcap-msr.c path counts 3 distinct packages (count_unique_u32) and
normalizes the IDs onto the dense, order-preserving indices [0, 1, 1, 2];
the raplcap-msr-sys-linux.c discovery msr_get_num_pkg_die instead reports
max raw ID + 1 = 10 packages. -/
theorem topology_normalization_amended :
    count_unique_u32 [2, 5, 5, 9] = 3 ∧
      normalize_to_indexes [2, 5, 5, 9] 3 = [0, 1, 1, 2] ∧
      msr_get_num_pkg_die [(2, 0), (5, 0), (5, 0), (9, 0)] = some (10, 1) := by
  refine ⟨by decide, ?_, ?_⟩
  · decide
  · decide

theorem insertTopo_ne_nil (x : MsrTopology) (l : List MsrTopology) :
    insertTopo x l ≠ [] := by
  cases l with
  | nil => simp [insertTopo]
  | cons y ys =>
    unfold insertTopo
    split <;> simp

theorem sortTopo_eq_nil_iff (l : List MsrTopology) : sortTopo l = [] ↔ l = [] := by
  cases l with
  | nil => simp [sortTopo]
  | cons x xs =>
    simp only [sortTopo]
    constructor
    · intro h
      exact absurd h (insertTopo_ne_nil x (sortTopo xs))
    · intro h
      cases h

/-- Counterexample for C6: the heterogeneous enumeration where package 0 has
dies {0, 1} and package 1 has only die {0} is not die-homogeneous, yet
msr_sys_init succeeds on it rather than failing — and even returns an
inconsistent context (3 opened handles for n_pkg * n_die = 2 * 1). -/
theorem msr_sys_init_heterogeneous_counterexample :
    dieHomogeneous [(0, 0), (0, 1), (1, 0)] = false ∧
      msr_sys_init (fun _ => true) [(0, 0), (0, 1), (1, 0)] =
        some ⟨2, 1, 3, [0, 1, 2]⟩ := by
  refine ⟨by decide, ?_⟩
  decide

/-- C6 (amended): msr_sys_init performs no die-count homogeneity check — for
every nonempty enumeration whose representative opens succeed, heterogeneous
or not, it returns a context (taking package and die counts from the largest
sorted entry and one handle per distinct (package, die) pair). -/
theorem msr_sys_init_no_homogeneity_check (pkg_die : List (ℕ × ℕ)) (openOk : ℕ → Bool)
    (hne : pkg_die ≠ [])
    (hopen : ∀ c ∈ get_cpus_to_open (sortTopo (topoOfPkgDie pkg_die)), openOk c = true) :
    (msr_sys_init openOk pkg_die).isSome = true := by
  unfold msr_sys_init
  cases hs : sortTopo (topoOfPkgDie pkg_die) with
  | nil =>
    rw [sortTopo_eq_nil_iff] at hs
    have : pkg_die = [] := by
      cases pkg_die with
      | nil => rfl
      | cons a l => simp [topoOfPkgDie] at hs
    exact absurd this hne
  | cons t ts =>
    rw [hs] at hopen
    have hall : (get_cpus_to_open (t :: ts)).all openOk = true :=
      List.all_eq_true.mpr hopen
    simp only [hall, if_true, Option.isSome_some]

/-- Witness for C6 at a concrete input: the heterogeneous three-CPU
enumeration with all opens succeeding yields an initialized context. -/
theorem msr_sys_init_no_homogeneity_check_witness :
    (msr_sys_init (fun _ => true) [(0, 0), (0, 1), (1, 0)]).isSome = true :=
  msr_sys_init_no_homogeneity_check [(0, 0), (0, 1), (1, 0)] (fun _ => true)
    (by decide) (by decide)

/-- Counterexample for C8: starting from a fresh world (next descriptor 1,
nothing open), a first raplcap_init on a supported single-CPU system opens
descriptor 1; a second raplcap_init on the SAME already-initialized context
succeeds but re-runs initialization: it opens a fresh descriptor 2, the
context points only at [2], and descriptor 1 remains open yet unreachable —
the already-open handle is leaked and reallocated, not preserved. -/
theorem raplcap_init_twice_counterexample :
    (raplcap_init ⟨true, [0], true⟩ ⟨0, none⟩ ⟨1, []⟩).1 = 0 ∧
      (raplcap_init ⟨true, [0], true⟩ ⟨0, none⟩ ⟨1, []⟩).2.1.state.map MsrState.fds =
        some [1] ∧
      (raplcap_init ⟨true, [0], true⟩
          (raplcap_init ⟨true, [0], true⟩ ⟨0, none⟩ ⟨1, []⟩).2.1
          (raplcap_init ⟨true, [0], true⟩ ⟨0, none⟩ ⟨1, []⟩).2.2).1 = 0 ∧
      (raplcap_init ⟨true, [0], true⟩
          (raplcap_init ⟨true, [0], true⟩ ⟨0, none⟩ ⟨1, []⟩).2.1
          (raplcap_init ⟨true, [0], true⟩ ⟨0, none⟩ ⟨1, []⟩).2.2).2.1.state.map
        MsrState.fds = some [2] ∧
      (raplcap_init ⟨true, [0], true⟩
          (raplcap_init ⟨true, [0], true⟩ ⟨0, none⟩ ⟨1, []⟩).2.1
          (raplcap_init ⟨true, [0], true⟩ ⟨0, none⟩ ⟨1, []⟩).2.2).2.2.openFds =
        [1, 2] := by
  refine ⟨?_, ?_, ?_, ?_, ?_⟩ <;> decide

/-- C8 (amended): raplcap_destroy on a never-initialized context (state NULL)
is a no-op that returns success, and a second raplcap_destroy after any
raplcap_destroy returns success without touching further descriptors; but
raplcap_init on an already-initialized context is a full re-initialization —
in the concrete one-CPU environment it returns success while opening a fresh
descriptor and leaking the previously opened one. -/
theorem raplcap_lifecycle_amended :
    (∀ (rc : Raplcap) (w : World), rc.state = none →
        raplcap_destroy rc w = (0, ⟨0, none⟩, w)) ∧
      (∀ (rc : Raplcap) (w : World),
        (raplcap_destroy (raplcap_destroy rc w).2.1 (raplcap_destroy rc w).2.2).1 = 0 ∧
          (raplcap_destroy (raplcap_destroy rc w).2.1 (raplcap_destroy rc w).2.2).2.2 =
            (raplcap_destroy rc w).2.2) ∧
      ((raplcap_init ⟨true, [0], true⟩
          (raplcap_init ⟨true, [0], true⟩ ⟨0, none⟩ ⟨1, []⟩).2.1
          (raplcap_init ⟨true, [0], true⟩ ⟨0, none⟩ ⟨1, []⟩).2.2).1 = 0 ∧
        (raplcap_init ⟨true, [0], true⟩
            (raplcap_init ⟨true, [0], true⟩ ⟨0, none⟩ ⟨1, []⟩).2.1
            (raplcap_init ⟨true, [0], true⟩ ⟨0, none⟩ ⟨1, []⟩).2.2).2.2.openFds =
          [1, 2]) := by
  refine ⟨?_, ?_, by decide, by decide⟩
  · intro rc w h
    obtain ⟨ns, st⟩ := rc
    cases st with
    | none => rfl
    | some s => cases h
  · intro rc w
    obtain ⟨ns, st⟩ := rc
    cases st with
    | none => exact ⟨rfl, rfl⟩
    | some s => exact ⟨rfl, rfl⟩

/-- Witness for C8 at a concrete input: destroying a never-initialized
context leaves the descriptor world untouched and returns 0. -/
theorem raplcap_lifecycle_amended_witness :
    raplcap_destroy ⟨0, none⟩ ⟨1, []⟩ = (0, ⟨0, none⟩, ⟨1, []⟩) :=
  raplcap_lifecycle_amended.1 ⟨0, none⟩ ⟨1, []⟩ rfl

end RaplcapProof
